import Mathlib

/-!
Shallow embedding of the credit-ledger endpoints of the buddyhelp backend
(src/index.js): the credits table and the three handlers that read or
mutate it — POST /admin/add-credits, GET /credits/:uid and POST /tick —
together with a two-phase model of POST /tick that exposes its SELECT and
UPDATE round trips as separate atomic steps, for the concurrency analysis,
and a variant of the add-credits handler with the storage outcomes made
explicit, for the failure-propagation analysis.
-/

/-- Account identifiers: the unique user ids issued by the auth provider. -/
abbrev AccountId := String

/-- The credits table, at most one row per account; a row stores the
integer field remaining_seconds. -/
abbrev Credits := AccountId → Option Int

/-- Point write to the credits table: both the supabase insert of a fresh
row and the update keyed by eq user_id write exactly the given account's
row and no other. -/
def setRow (db : Credits) (uid : AccountId) (v : Int) : Credits :=
  fun k => if k = uid then some v else db k

/-- Response of POST /tick: the JSON body with the exhausted flag, or the
unhandled TypeError thrown when the SELECT found no row — data is null and
the handler dereferences data.remaining_seconds. -/
inductive TickOutcome
  | exhausted (flag : Bool)
  | nullCrash
  deriving DecidableEq

/-- Response of GET /credits/:uid: the JSON body with the remaining value,
or the unhandled TypeError thrown when the SELECT found no row. -/
inductive BalanceOutcome
  | remaining (n : Int)
  | nullCrash
  deriving DecidableEq

/-- Response of POST /admin/add-credits: the handler has a single response
path, the JSON success message "Credits added". -/
inductive GrantOutcome
  | added
  deriving DecidableEq

/-- POST /tick (src/index.js lines 206-223): SELECT the row of the given
userId; with no row the handler crashes dereferencing null; with a value
<= 0 it responds exhausted true without writing; otherwise it issues an
UPDATE writing the value it read minus 1 and responds exhausted false. -/
def tick (db : Credits) (userId : AccountId) : TickOutcome × Credits :=
  match db userId with
  | none => (.nullCrash, db)
  | some n =>
      if n ≤ 0 then (.exhausted true, db)
      else (.exhausted false, setRow db userId (n - 1))

/-- GET /credits/:uid (src/index.js lines 193-201): SELECT the row and
respond with its remaining_seconds; with no row the handler crashes
dereferencing null. -/
def getCredits (db : Credits) (uid : AccountId) : BalanceOutcome :=
  match db uid with
  | none => .nullCrash
  | some n => .remaining n

/-- POST /admin/add-credits (src/index.js lines 169-188): SELECT the row of
the given userId; with no row, INSERT a fresh row holding the given
seconds; otherwise UPDATE the row to the value read plus seconds. The
amount is not validated and the response is the success message in every
case. -/
def addCredits (db : Credits) (userId : AccountId) (seconds : Int) :
    GrantOutcome × Credits :=
  match db userId with
  | none => (.added, setRow db userId seconds)
  | some n => (.added, setRow db userId (n + seconds))

/-- One ledger mutation as issued over HTTP: a POST /admin/add-credits
carrying a seconds amount, or a POST /tick. -/
inductive Op
  | grant (uid : AccountId) (seconds : Int)
  | tick (uid : AccountId)
  deriving DecidableEq

/-- The account a ledger call targets (the userId field of the request). -/
def Op.uid : Op → AccountId
  | .grant u _ => u
  | .tick u => u

/-- The table that results from one ledger call. -/
def applyOp (db : Credits) : Op → Credits
  | .grant uid s => (addCredits db uid s).2
  | .tick uid => (tick db uid).2

/-- The table that results from a sequence of ledger calls, run in order. -/
def runOps (db : Credits) : List Op → Credits
  | [] => db
  | op :: rest => runOps (applyOp db op) rest

/-- Total of the seconds amounts of the add-credits calls in a sequence. -/
def grantSum : List Op → Int
  | [] => 0
  | Op.grant _ s :: rest => s + grantSum rest
  | Op.tick _ :: rest => grantSum rest

/-- Number of tick calls in a sequence that respond exhausted = false when
the sequence is run from the given table. -/
def succTicks (db : Credits) : List Op → Nat
  | [] => 0
  | Op.grant u s :: rest => succTicks (applyOp db (Op.grant u s)) rest
  | Op.tick u :: rest =>
      (if (tick db u).1 = TickOutcome.exhausted false then 1 else 0) +
        succTicks (applyOp db (Op.tick u)) rest

/-- Every existing balance row is non-negative. -/
def wfCredits (db : Credits) : Prop :=
  ∀ uid n, db uid = some n → 0 ≤ n

/-- Writing a non-negative value preserves non-negativity of the table. -/
theorem wfCredits_setRow (db : Credits) (uid : AccountId) (v : Int)
    (hdb : wfCredits db) (hv : 0 ≤ v) : wfCredits (setRow db uid v) := by
  intro k n hk
  by_cases h : k = uid
  · subst h
    simp [setRow] at hk
    omega
  · simp [setRow, h] at hk
    exact hdb k n hk

/-- A single call preserves non-negativity of the table, provided a grant
carries a non-negative amount. -/
theorem wfCredits_applyOp (db : Credits) (op : Op) (hdb : wfCredits db)
    (hamt : ∀ uid s, op = Op.grant uid s → 0 ≤ s) :
    wfCredits (applyOp db op) := by
  cases op with
  | grant uid s =>
      have hs : 0 ≤ s := hamt uid s rfl
      cases hrow : db uid with
      | none =>
          simpa [applyOp, addCredits, hrow] using wfCredits_setRow db uid s hdb hs
      | some n =>
          have hn : 0 ≤ n := hdb uid n hrow
          simpa [applyOp, addCredits, hrow] using
            wfCredits_setRow db uid (n + s) hdb (by omega)
  | tick uid =>
      cases hrow : db uid with
      | none => simpa [applyOp, tick, hrow] using hdb
      | some n =>
          by_cases hle : n ≤ 0
          · simpa [applyOp, tick, hrow, hle] using hdb
          · simpa [applyOp, tick, hrow, hle] using
              wfCredits_setRow db uid (n - 1) hdb (by have := hdb uid n hrow; omega)

/-- Progress of one in-flight POST /tick call against a single account:
before its SELECT, after its SELECT returned the value v but before its
UPDATE, or finished with the exhausted flag it responded with. -/
inductive TickPhase
  | ready
  | selected (v : Int)
  | finished (flag : Bool)
  deriving DecidableEq

/-- One atomic storage round trip of the POST /tick handler: the SELECT
reads the current balance; the following step either responds exhausted
when the value read was <= 0, or issues the UPDATE writing that value
minus 1 and responds not exhausted. A finished call does nothing. -/
def tickStep (bal : Int) : TickPhase → Int × TickPhase
  | .ready => (bal, .selected bal)
  | .selected v =>
      if v ≤ 0 then (bal, .finished true) else (v - 1, .finished false)
  | .finished flag => (bal, .finished flag)

/-- Run a set of concurrent POST /tick calls against one account under an
interleaving: the schedule lists, in order, which call performs its next
atomic storage round trip. Out-of-range indices do nothing. -/
def runSched (bal : Int) (ps : List TickPhase) : List Nat → Int × List TickPhase
  | [] => (bal, ps)
  | i :: rest =>
      match ps[i]? with
      | none => runSched bal ps rest
      | some p => runSched (tickStep bal p).1 (ps.set i (tickStep bal p).2) rest

/-- A single POST /tick call run to completion in the two-phase model
behaves like the sequential handler on an existing row: it responds
exhausted on a value <= 0 and otherwise writes the value minus 1. -/
theorem runSched_single_call (bal : Int) :
    runSched bal [TickPhase.ready] [0, 0] =
      if bal ≤ 0 then (bal, [TickPhase.finished true])
      else (bal - 1, [TickPhase.finished false]) := by
  by_cases h : bal ≤ 0 <;> simp [runSched, tickStep, h]

/-- POST /admin/add-credits with the storage outcomes made explicit. The
handler destructures only the data field of the SELECT result, so a failed
SELECT (sErr set) is indistinguishable from a missing row; the result of
the INSERT or UPDATE is never read, so when that write fails (uErr set)
the table is left as it was while the handler still responds with the
success message. -/
def addCreditsFallible (db : Credits) (uid : AccountId) (seconds : Int)
    (sErr uErr : Option String) : GrantOutcome × Credits :=
  match (if sErr.isSome then none else db uid) with
  | none => (.added, if uErr.isSome then db else setRow db uid seconds)
  | some n => (.added, if uErr.isSome then db else setRow db uid (n + seconds))

/-- With both storage round trips succeeding, the explicit-outcome handler
coincides with addCredits. -/
theorem addCreditsFallible_no_err (db : Credits) (uid : AccountId) (s : Int) :
    addCreditsFallible db uid s none none = addCredits db uid s := by
  cases hrow : db uid <;> simp [addCreditsFallible, addCredits, hrow]

/-- C2: if the balance row of an account holds N > 0, POST /tick responds
exhausted = false and the account's row afterwards holds exactly N - 1. -/
theorem tick_positive_decrements (db : Credits) (uid : AccountId) (n : Int)
    (hrow : db uid = some n) (hpos : 0 < n) :
    (tick db uid).1 = .exhausted false ∧ (tick db uid).2 uid = some (n - 1) := by
  have hn : ¬ n ≤ 0 := by omega
  simp [tick, hrow, hn, setRow]

/-- Witness for C2 at a concrete one-row table holding 2. -/
theorem tick_positive_decrements_w :
    setRow (fun _ => none) "u" 2 "u" = some 2 ∧ (0 : Int) < 2 ∧
      (tick (setRow (fun _ => none) "u" 2) "u").1 = .exhausted false ∧
      (tick (setRow (fun _ => none) "u" 2) "u").2 "u" = some 1 :=
  ⟨by decide, by decide,
    by simpa using tick_positive_decrements _ "u" 2 (by decide) (by decide)⟩

/-- C3: if the balance row of an account holds a value <= 0, POST /tick
responds exhausted = true and leaves the table unchanged. -/
theorem tick_exhausted_no_change (db : Credits) (uid : AccountId) (n : Int)
    (hrow : db uid = some n) (hle : n ≤ 0) :
    (tick db uid).1 = .exhausted true ∧ (tick db uid).2 = db := by
  simp [tick, hrow, hle]

/-- Witness for C3 at a concrete one-row table holding 0. -/
theorem tick_exhausted_no_change_w :
    setRow (fun _ => none) "z" 0 "z" = some 0 ∧ (0 : Int) ≤ 0 ∧
      (tick (setRow (fun _ => none) "z" 0) "z").1 = .exhausted true ∧
      (tick (setRow (fun _ => none) "z" 0) "z").2 = setRow (fun _ => none) "z" 0 :=
  ⟨by decide, by decide,
    tick_exhausted_no_change _ "z" 0 (by decide) (by decide)⟩

/-- C4 counterexample: starting from an account whose row holds 0, the
sequence consisting of one POST /admin/add-credits with seconds = -1
leaves the row at -1, and GET /credits/:uid then reports the negative
value to the caller, so the balance does not stay non-negative after every
Grant/Tick sequence. -/
theorem negative_balance_reachable :
    runOps (setRow (fun _ => none) "u" 0) [Op.grant "u" (-1)] "u" = some (-1) ∧
      getCredits (runOps (setRow (fun _ => none) "u" 0) [Op.grant "u" (-1)]) "u" =
        .remaining (-1) ∧
      ¬ (0 : Int) ≤ -1 := by
  decide

/-- C4 amended: provided every granted amount in the sequence is
non-negative, every account balance stays non-negative after running the
sequence; since every prefix is itself such a sequence, the balance is
non-negative after each operation. -/
theorem balances_stay_nonneg (ops : List Op) (db : Credits)
    (hdb : wfCredits db)
    (hamt : ∀ uid s, Op.grant uid s ∈ ops → 0 ≤ s) :
    wfCredits (runOps db ops) := by
  induction ops generalizing db with
  | nil => simpa [runOps] using hdb
  | cons op rest ih =>
      have hstep : wfCredits (applyOp db op) :=
        wfCredits_applyOp db op hdb (fun uid s h => hamt uid s (by simp [h]))
      exact ih (applyOp db op) hstep
        (fun uid s h => hamt uid s (List.mem_cons_of_mem _ h))

/-- Witness for the amended C4 on a concrete table and sequence. -/
theorem balances_stay_nonneg_w :
    wfCredits (fun _ => some 0) ∧
      (∀ uid s, Op.grant uid s ∈ [Op.grant "u" 3, Op.tick "u"] → 0 ≤ s) ∧
      wfCredits (runOps (fun _ => some 0) [Op.grant "u" 3, Op.tick "u"]) := by
  have hw : wfCredits (fun _ => some 0) := by
    intro uid n h
    simp at h
    omega
  have hs : ∀ uid s, Op.grant uid s ∈ [Op.grant "u" 3, Op.tick "u"] → 0 ≤ s := by
    intro uid s hmem
    simp at hmem
    obtain ⟨h1, h2⟩ := hmem
    omega
  exact ⟨hw, hs, balances_stay_nonneg _ _ hw hs⟩

/-- C5: for a non-negative amount, POST /admin/add-credits adds the amount
to an existing row and, when no row exists, creates one holding exactly
that amount, responding with the success message rather than failing in
either case. -/
theorem addCredits_adds_or_creates (db : Credits) (uid : AccountId) (s : Int)
    (_hs : 0 ≤ s) :
    (∀ n, db uid = some n →
        (addCredits db uid s).1 = .added ∧
        (addCredits db uid s).2 uid = some (n + s)) ∧
      (db uid = none →
        (addCredits db uid s).1 = .added ∧
        (addCredits db uid s).2 uid = some s) := by
  constructor
  · intro n hrow
    simp [addCredits, hrow, setRow]
  · intro hrow
    simp [addCredits, hrow, setRow]

/-- Witness for C5: add 3 to an existing row holding 5, and grant 3 to an
account with no row. -/
theorem addCredits_adds_or_creates_w :
    (0 : Int) ≤ 3 ∧
      (addCredits (setRow (fun _ => none) "u" 5) "u" 3).2 "u" = some 8 ∧
      (addCredits (fun _ => none) "v" 3).2 "v" = some 3 := by
  refine ⟨by decide, ?_, ?_⟩
  · exact ((addCredits_adds_or_creates (setRow (fun _ => none) "u" 5) "u" 3
      (by decide)).1 5 (by decide)).2
  · exact ((addCredits_adds_or_creates (fun _ => none) "v" 3 (by decide)).2 rfl).2

/-- C1: two concurrent POST /tick calls against a balance of 2, interleaved
so that both SELECTs run before either UPDATE, leave the balance at 1
instead of 2 - 2 = 0 while both calls respond exhausted = false: one
decrement is lost, because each UPDATE writes the absolute value its own
SELECT read minus 1 rather than performing an atomic conditional
decrement. -/
theorem concurrent_ticks_lose_update :
    runSched 2 [TickPhase.ready, TickPhase.ready] [0, 1, 0, 1] =
      (1, [TickPhase.finished false, TickPhase.finished false]) ∧
      (1 : Int) ≠ 2 - 2 := by
  decide

/-- C6: POST /admin/add-credits performs no validation of the amount: with
seconds = -3 against a row holding 5, it responds with the success message
and writes 2, instead of failing with an invalid-argument error and
leaving the balance unchanged. -/
theorem addCredits_accepts_negative :
    (addCredits (setRow (fun _ => none) "u" 5) "u" (-3)).1 = .added ∧
      (addCredits (setRow (fun _ => none) "u" 5) "u" (-3)).2 "u" = some 2 := by
  decide

/-- C7: with no row for the account, the SELECT yields null and both GET
/credits/:uid and POST /tick crash with a TypeError dereferencing
data.remaining_seconds instead of failing with a typed not-found error;
the table is left unchanged. -/
theorem missing_row_crashes :
    getCredits (fun _ => none) "ghost" = .nullCrash ∧
      (tick (fun _ => none) "ghost").1 = .nullCrash ∧
      (tick (fun _ => none) "ghost").2 = (fun _ => none : Credits) :=
  ⟨rfl, rfl, rfl⟩

/-- C8: when the UPDATE issued by POST /admin/add-credits fails at the
storage layer, the handler never reads that result: it still responds with
the success message while the row is unchanged, so the storage error is
silently swallowed and replaced by a success response instead of surfacing
as a retryable storage error. -/
theorem storage_error_swallowed :
    (addCreditsFallible (setRow (fun _ => none) "u" 5) "u" 3 none
        (some "unavailable")).1 = .added ∧
      (addCreditsFallible (setRow (fun _ => none) "u" 5) "u" 3 none
        (some "unavailable")).2 "u" = some 5 := by
  decide

/-- C10: both handlers key their row lookup and their write to the given
account id, so a POST /admin/add-credits or POST /tick for one account
leaves every other account's row untouched. -/
theorem other_rows_untouched (db : Credits) (a b : AccountId) (s : Int)
    (hne : a ≠ b) :
    (addCredits db a s).2 b = db b ∧ (tick db a).2 b = db b := by
  have hba : b ≠ a := hne.symm
  constructor
  · cases hrow : db a <;> simp [addCredits, hrow, setRow, hba]
  · cases hrow : db a with
    | none => simp [tick, hrow]
    | some n =>
        by_cases hle : n ≤ 0 <;> simp [tick, hrow, hle, setRow, hba]

/-- Witness for C10 on a concrete table, accounts a and b. -/
theorem other_rows_untouched_w :
    ("a" : AccountId) ≠ "b" ∧
      (addCredits (fun _ => some 7) "a" 4).2 "b" = (fun _ => some (7 : Int)) "b" ∧
      (tick (fun _ => some 7) "a").2 "b" = (fun _ => some (7 : Int)) "b" := by
  have h : ("a" : AccountId) ≠ "b" := by decide
  exact ⟨h, other_rows_untouched _ "a" "b" 4 h⟩

/-- C9: for an account whose row holds n, after any finite sequence of
add-credits and tick calls all targeting that account, GET /credits/:uid
reports exactly n plus the sum of the granted amounts minus the number of
tick calls that responded exhausted = false. -/
theorem getCredits_after_ops (ops : List Op) (db : Credits) (a : AccountId)
    (n : Int) (hrow : db a = some n) (hops : ∀ op ∈ ops, Op.uid op = a) :
    getCredits (runOps db ops) a =
      .remaining (n + grantSum ops - (succTicks db ops : Int)) := by
  induction ops generalizing db n with
  | nil => simp [runOps, grantSum, succTicks, getCredits, hrow]
  | cons op rest ih =>
      have hrest : ∀ x ∈ rest, Op.uid x = a :=
        fun x hx => hops x (List.mem_cons_of_mem _ hx)
      cases op with
      | grant u s =>
          have hu : u = a := hops (.grant u s) (List.mem_cons_self _ _)
          subst hu
          have hrow2 : applyOp db (Op.grant u s) u = some (n + s) := by
            simp [applyOp, addCredits, hrow, setRow]
          have hih := ih (applyOp db (Op.grant u s)) (n + s) hrow2 hrest
          simp only [runOps, grantSum, succTicks]
          rw [hih]
          congr 1
          ring
      | tick u =>
          have hu : u = a := hops (.tick u) (List.mem_cons_self _ _)
          subst hu
          by_cases hle : n ≤ 0
          · have happ : applyOp db (Op.tick u) = db := by
              simp [applyOp, tick, hrow, hle]
            have hflag : (tick db u).1 = TickOutcome.exhausted true := by
              simp [tick, hrow, hle]
            have hih := ih db n hrow hrest
            simp only [runOps, grantSum, succTicks, happ, hflag]
            rw [hih]
            simp
          · have happ : applyOp db (Op.tick u) u = some (n - 1) := by
              simp [applyOp, tick, hrow, hle, setRow]
            have hflag : (tick db u).1 = TickOutcome.exhausted false := by
              simp [tick, hrow, hle]
            have hih := ih (applyOp db (Op.tick u)) (n - 1) happ hrest
            simp only [runOps, grantSum, succTicks, hflag]
            rw [hih]
            congr 1
            simp
            ring

/-- Witness for C9: from a row holding 2, run tick, add 5, tick, tick; the
reported balance is 2 + 5 - 3. -/
theorem getCredits_after_ops_w :
    (fun _ => some (2 : Int) : Credits) "u" = some 2 ∧
      (∀ op ∈ ([Op.tick "u", Op.grant "u" 5, Op.tick "u", Op.tick "u"] : List Op),
        Op.uid op = "u") ∧
      getCredits
          (runOps (fun _ => some (2 : Int))
            [Op.tick "u", Op.grant "u" 5, Op.tick "u", Op.tick "u"]) "u" =
        .remaining ((2 : Int) +
          grantSum [Op.tick "u", Op.grant "u" 5, Op.tick "u", Op.tick "u"] -
          (succTicks (fun _ => some (2 : Int))
            [Op.tick "u", Op.grant "u" 5, Op.tick "u", Op.tick "u"] : Int)) := by
  have h1 : (fun _ => some (2 : Int) : Credits) "u" = some 2 := rfl
  have h2 : ∀ op ∈ ([Op.tick "u", Op.grant "u" 5, Op.tick "u", Op.tick "u"] : List Op),
      Op.uid op = "u" := by decide
  exact ⟨h1, h2, getCredits_after_ops _ _ "u" 2 h1 h2⟩
